import Mathlib

/-!
Verification of the satellite ground station's mission execution pipeline
against its natural-language specification.

The development shallowly embeds the Python sources:
  * `DopplerCalc`  — src/python/doppler_calc.py (per-sample Doppler computation)
  * `DecodeApt`    — src/python/demod/decode_apt.py and decode_apt_wav.py
                     (line extraction, sync fallback, image normalization)
  * `Scheduler`    — src/python/ml/scheduler_optimizer.py (greedy constraint
                     scheduler)
  * `Orchestrator` — src/python/schedule_captures.py (capture execution and
                     mission logging)
  * `Server`       — src/satcom_server.py (capture request handling)

Machine floats are modelled by `ℚ`; a floating-point operation with no
well-defined finite result (NaN from 0/0, an exception) is modelled by
`Option`, with `none` for the undefined/raising outcome.  External library
routines that the code calls as black boxes (scipy's `resample`, numpy's
`linalg.norm`, the orbit propagator) are taken as parameters constrained by
the properties the code relies on, so every claim is settled against the
repository's own logic.
-/

namespace DopplerCalc

/-- Three-component vector of rationals, modelling the float triples that
`topocentric.position.km` and `topocentric.velocity.km_per_s` return in
`calculate_doppler_profile` (src/python/doppler_calc.py). -/
structure Vec3 where
  x : ℚ
  y : ℚ
  z : ℚ
deriving DecidableEq, Repr

/-- Dot product, modelling `np.dot` on 3-vectors. -/
def dot (a b : Vec3) : ℚ := a.x * b.x + a.y * b.y + a.z * b.z

/-- Scalar multiplication on 3-vectors; `smul (1/r) v` models the
componentwise division `v / r` from the source. -/
def smul (c : ℚ) (v : Vec3) : Vec3 := ⟨c * v.x, c * v.y, c * v.z⟩

/-- Speed of light in m/s, the constant `C` of doppler_calc.py. -/
def SPEED_OF_LIGHT : ℚ := 299792458

/-- One iteration of the loop body of `calculate_doppler_profile`
(doppler_calc.py lines 120-131).  `range_km` is the value numpy's
`linalg.norm` returned for `pos`; the code computes
`range_unit = pos / range_km`, `v_radial = dot(vel, range_unit)`,
`doppler = -center_freq_hz * (v_radial * 1000 / C)`.
There is no guard for `range_km = 0`: numpy evaluates `pos / 0.0` to NaN
(an invalid 0/0 float division) and the NaN propagates into the offset, so
no well-defined numeric offset exists; that outcome is modelled as `none`. -/
def doppler_sample (center_freq_hz : ℚ) (pos vel : Vec3) (range_km : ℚ) : Option ℚ :=
  if range_km = 0 then none
  else
    some (-center_freq_hz * (dot vel (smul (1 / range_km) pos) * 1000 / SPEED_OF_LIGHT))

/-- Python's `int()` conversion: truncation toward zero. -/
def py_int_trunc (q : ℚ) : ℤ :=
  if q < 0 then -Int.floor (-q) else Int.floor q

/-- The sample count of `calculate_doppler_profile`:
`num_points = int(duration_sec / time_step_sec) + 1` (line 96). -/
def doppler_num_points (duration step : ℚ) : ℤ :=
  py_int_trunc (duration / step) + 1

/-- The list of Doppler offsets accumulated by the profile loop
(lines 104-137): one offset per `i in range(num_points)`, where
`offsetAt i` is the offset the orbital geometry yields at step `i`
(the loop body's result, parametrised over the external propagator).
Python's `range` of a non-positive count is empty, hence `Int.toNat`. -/
def doppler_profile_offsets (duration step : ℚ) (offsetAt : ℕ → ℚ) : List ℚ :=
  (List.range (doppler_num_points duration step).toNat).map offsetAt

/-- Python's `max(...)` on a list: `none` models the `ValueError` raised on
an empty sequence. -/
def py_max : List ℚ → Option ℚ
  | [] => none
  | x :: xs => some (xs.foldl (fun a b => max a b) x)

/-- Python's `min(...)` on a list, `none` for the empty-sequence error. -/
def py_min : List ℚ → Option ℚ
  | [] => none
  | x :: xs => some (xs.foldl (fun a b => min a b) x)

/-- The result assembly of `calculate_doppler_profile` (lines 139-154): the
offsets list together with `max(doppler_hz)` and `min(doppler_hz)`.  When the
offsets list is empty, `max([])` raises `ValueError`, modelled as `none`. -/
def calculate_doppler_profile_run (duration step : ℚ) (offsetAt : ℕ → ℚ) :
    Option (List ℚ × ℚ × ℚ) :=
  let pts := doppler_profile_offsets duration step offsetAt
  match py_max pts, py_min pts with
  | some mx, some mn => some (pts, mx, mn)
  | _, _ => none

/-- Claim C3: at every sampled instant with positive carrier frequency and
nonzero range, the Doppler offset equals
`-carrier_freq_hz * (radial_velocity_m_s / speed_of_light)` with the radial
velocity the dot product of the relative velocity with the unit line-of-sight
vector, and the offset is strictly positive iff the radial velocity is
strictly negative.  `range_km` is tied to `pos` by the norm property
`range_km * range_km = dot pos pos` with `0 < range_km`. -/
theorem doppler_sample_formula_and_sign (f : ℚ) (pos vel : Vec3) (r : ℚ)
    (hf : 0 < f) (hr : 0 < r) (_hnorm : r * r = dot pos pos) :
    doppler_sample f pos vel r =
      some (-f * (dot vel (smul (1 / r) pos) * 1000 / SPEED_OF_LIGHT)) ∧
    (0 < -f * (dot vel (smul (1 / r) pos) * 1000 / SPEED_OF_LIGHT) ↔
      dot vel (smul (1 / r) pos) < 0) := by
  have hrne : r ≠ 0 := ne_of_gt hr
  constructor
  · simp [doppler_sample, hrne]
  · have hC : (0:ℚ) < SPEED_OF_LIGHT := by norm_num [SPEED_OF_LIGHT]
    set v := dot vel (smul (1 / r) pos) with hv
    have hk : (0:ℚ) < f * 1000 / SPEED_OF_LIGHT := by positivity
    have hrw : -f * (v * 1000 / SPEED_OF_LIGHT) = (f * 1000 / SPEED_OF_LIGHT) * (-v) := by
      ring
    rw [hrw]
    constructor
    · intro h
      by_contra hcon
      push_neg at hcon
      have hnv : -v ≤ 0 := by linarith
      nlinarith
    · intro h
      have hnv : 0 < -v := by linarith
      exact mul_pos hk hnv

/-- Witness for claim C3 at a concrete sampled instant: position (3,4,0) km
(range 5 km), velocity (-3,-4,0) km/s (approaching), carrier 137.1 MHz. -/
theorem doppler_sample_formula_and_sign_witness :
    doppler_sample 137100000 ⟨3, 4, 0⟩ ⟨-3, -4, 0⟩ 5 =
      some (-137100000 * (dot ⟨-3, -4, 0⟩ (smul (1 / 5) ⟨3, 4, 0⟩) * 1000 / SPEED_OF_LIGHT)) ∧
    (0 < -137100000 * (dot ⟨-3, -4, 0⟩ (smul (1 / 5) ⟨3, 4, 0⟩) * 1000 / SPEED_OF_LIGHT) ↔
      dot ⟨-3, -4, 0⟩ (smul (1 / 5) ⟨3, 4, 0⟩) < 0) :=
  doppler_sample_formula_and_sign 137100000 ⟨3, 4, 0⟩ ⟨-3, -4, 0⟩ 5
    (by norm_num) (by norm_num) (by norm_num [dot])

/-- Claim C8 (code bug): the spec defines the offset to be 0 when the range
is exactly 0, "to avoid division by zero", but `calculate_doppler_profile`
has no such guard: at range 0 the code divides the position vector by zero,
producing NaN (modelled `none`), not the offset 0 the claim requires. -/
theorem doppler_sample_zero_range_is_undefined :
    doppler_sample 137100000 ⟨0, 0, 0⟩ ⟨1, 0, 0⟩ 0 = none ∧
    doppler_sample 137100000 ⟨0, 0, 0⟩ ⟨1, 0, 0⟩ 0 ≠ some 0 := by
  constructor
  · rfl
  · simp [doppler_sample]

/-- Claim C9 (code bug): the spec requires that with fewer than 2 samples the
profiler return a single zero-offset point instead of failing, but the code
has no such branch.  With duration 3 s and step 5 s exactly one point is
produced and it carries the actual geometric offset (457 here), not zero;
with duration -10 s and step 5 s `num_points` is -1, the offsets list is
empty, and `max([])` raises `ValueError` (modelled `none`) instead of
returning a single zero-offset point. -/
theorem doppler_profile_no_small_sample_fallback :
    calculate_doppler_profile_run 3 5 (fun _ => 457) = some ([457], 457, 457) ∧
    calculate_doppler_profile_run (-10) 5 (fun _ => 0) = none := by
  constructor
  · norm_num [calculate_doppler_profile_run, doppler_profile_offsets, doppler_num_points,
      py_int_trunc, py_max, py_min]
  · norm_num [calculate_doppler_profile_run, doppler_profile_offsets, doppler_num_points,
      py_int_trunc, py_max, py_min]
    rfl

end DopplerCalc

namespace DecodeApt

/-- APT format constant: lines per second (decode_apt.py line 30). -/
def APT_LINES_PER_SEC : ℕ := 2

/-- APT format constant: pixels per line (decode_apt.py line 31). -/
def APT_PIXELS_PER_LINE : ℕ := 2080

/-- APT format constant: processing sample rate in Hz (decode_apt.py line 33). -/
def APT_SAMPLE_RATE : ℕ := 20800

/-- The `samples_per_line = int(sample_rate / APT_LINES_PER_SEC)` computed in
`find_sync_pulses`; at the fixed processing rate this is 10400. -/
def samples_per_line : ℕ := APT_SAMPLE_RATE / APT_LINES_PER_SEC

/-- The `extract_lines` loop of decode_apt.py lines 181-199 (the same loop is
inlined in decode_apt_wav.py lines 94-101): for each sync position `start`,
take the fixed-length slice `data[start : start + samples_per_line]`, stop
(`break`) at the first slice that would run past the end of the data, and
resample every kept slice to `APT_PIXELS_PER_LINE` samples.  `resample`
stands for the external `scipy.signal.resample`, a parameter of the model. -/
def extract_lines (resample : List ℚ → ℕ → List ℚ) (data : List ℚ) :
    List ℕ → ℕ → List (List ℚ)
  | [], _ => []
  | start :: rest, spl =>
    if data.length < start + spl then []
    else resample ((data.drop start).take spl) APT_PIXELS_PER_LINE ::
      extract_lines resample data rest spl

/-- The raw slices taken by `extract_lines` before resampling: one
fixed-length slice `data[start : start + spl]` per kept sync position. -/
def extract_line_slices (data : List ℚ) : List ℕ → ℕ → List (List ℚ)
  | [], _ => []
  | start :: rest, spl =>
    if data.length < start + spl then []
    else (data.drop start).take spl :: extract_line_slices data rest spl

/-- Modelled from the spec (step 7 of the demodulation pipeline), for
comparison with `extract_line_slices`: the slice for each sync mark runs
from that mark to the NEXT sync mark, the nominal line length being used
only for the last mark, and a trailing line that would run past the end of
the envelope is dropped. -/
def spec_extract_line_slices (data : List ℚ) : List ℕ → ℕ → List (List ℚ)
  | [], _ => []
  | [s], spl =>
    if data.length < s + spl then [] else [(data.drop s).take spl]
  | s :: s2 :: rest, spl =>
    if data.length < s2 then []
    else (data.drop s).take (s2 - s) :: spec_extract_line_slices data (s2 :: rest) spl

/-- Shared characterisation of `extract_lines`: it maps the resampler over
the fixed-length slices of the longest prefix of sync positions whose
nominal-length slices fit inside the data. -/
theorem extract_lines_eq_takeWhile (resample : List ℚ → ℕ → List ℚ) (data : List ℚ)
    (sp : List ℕ) (spl : ℕ) :
    extract_lines resample data sp spl =
      (sp.takeWhile (fun s => decide (s + spl ≤ data.length))).map
        (fun s => resample ((data.drop s).take spl) APT_PIXELS_PER_LINE) := by
  induction sp with
  | nil => rfl
  | cons s rest ih =>
    by_cases h : data.length < s + spl
    · have hdec : decide (s + spl ≤ data.length) = false := by
        simp [decide_eq_false_iff_not]
        omega
      simp [extract_lines, List.takeWhile, h, hdec]
    · have hle : s + spl ≤ data.length := by omega
      have hdec : decide (s + spl ≤ data.length) = true := by simpa using hle
      simp [extract_lines, List.takeWhile, h, hdec, ih]

/-- Sync-position fallback of `decode_apt` (decode_apt.py lines 270-275):
`num_lines = int(len(envelope) / samples_per_line)` lines starting at the
regular positions `i * samples_per_line`. -/
def fallback_sync_positions (envLen : ℕ) : List ℕ :=
  (List.range (envLen / samples_per_line)).map (fun i => i * samples_per_line)

/-- Sync positions used by `decode_apt`: the detected correlation peaks when
there are at least 10, otherwise the regular fallback positions. -/
def decode_apt_sync_positions (envLen : ℕ) (detected : List ℕ) : List ℕ :=
  if detected.length < 10 then fallback_sync_positions envLen else detected

/-- Sync positions used by `decode_wav` (decode_apt_wav.py lines 87-90),
whose fallback threshold is 5 instead of 10. -/
def decode_wav_sync_positions (envLen : ℕ) (detected : List ℕ) : List ℕ :=
  if detected.length < 5 then fallback_sync_positions envLen else detected

/-- Sorting a list of floats, modelling numpy's ascending sort inside
`np.percentile`. -/
def np_sort (xs : List ℚ) : List ℚ := xs.insertionSort (fun a b => a ≤ b)

/-- Linear-interpolation percentile, modelling `np.percentile(xs, q)` with
the default interpolation: virtual index `q * (n - 1) / 100`, interpolated
between the two neighbouring order statistics.  (Only meaningful for a
nonempty `xs`; `np.percentile` raises on an empty array, which the caller
`normalize_image` accounts for.) -/
def np_percentile (q : ℚ) (xs : List ℚ) : ℚ :=
  let n := xs.length
  let pos : ℚ := q * ((n : ℚ) - 1) / 100
  let i : ℕ := (Int.floor pos).toNat
  if i + 1 < n then
    (np_sort xs).getD i 0 +
      (pos - (i : ℚ)) * ((np_sort xs).getD (i + 1) 0 - (np_sort xs).getD i 0)
  else (np_sort xs).getD i 0

/-- Conversion `astype(np.uint8)` of a float already scaled into [0, 255]:
C-style truncation toward zero, which on nonnegative values is the floor. -/
def np_astype_uint8 (y : ℚ) : ℕ := (Int.floor y).toNat

/-- One pixel of the rescaling step of `normalize_image` (decode_apt.py
lines 206-212, identically decode_apt_wav.py lines 107-109): clip to
`[p_low, p_high]`, rescale by `(x - p_low) / (p_high - p_low) * 255`, cast
to uint8.  When `p_high = p_low` the source divides by zero; the clipped
numerator is also zero, so numpy produces NaN and the uint8 cast of NaN has
no defined value — modelled as `none`. -/
def normalize_pixel (pLow pHigh x : ℚ) : Option ℕ :=
  if pHigh = pLow then none
  else some (np_astype_uint8 ((min (max x pLow) pHigh - pLow) / (pHigh - pLow) * 255))

/-- The `normalize_image` step: 2nd and 98th percentile over all pixels of
the image (numpy flattens), then clip-and-rescale every pixel.  `none`
models the exception `np.percentile` raises when the image has no pixels at
all (an empty line list). -/
def normalize_image (image : List (List ℚ)) : Option (List (List (Option ℕ))) :=
  if image.flatten.isEmpty then none
  else
    some (image.map (fun row => row.map
      (normalize_pixel (np_percentile 2 image.flatten) (np_percentile 98 image.flatten))))

/-- Line extraction as performed by `decode_apt` after sync detection:
fallback positions substituted when fewer than 10 marks were detected, then
`extract_lines` with the nominal line length. -/
def decode_apt_lines (resample : List ℚ → ℕ → List ℚ) (envelope : List ℚ)
    (detected : List ℕ) : List (List ℚ) :=
  extract_lines resample envelope
    (decode_apt_sync_positions envelope.length detected) samples_per_line

/-- The image `decode_apt` produces from the envelope: extracted lines, then
normalization. -/
def decode_apt_image (resample : List ℚ → ℕ → List ℚ) (envelope : List ℚ)
    (detected : List ℕ) : Option (List (List (Option ℕ))) :=
  normalize_image (decode_apt_lines resample envelope detected)

/-- Concrete stand-in for the external resampler in closed evaluations: it
returns the requested number of samples (all equal to the first input
sample), as `scipy.signal.resample(x, num)` returns `num` samples. -/
def resample_const (l : List ℚ) (n : ℕ) : List ℚ := List.replicate n (l.headD 0)

end DecodeApt

namespace DecodeApt

/-- Claim C1 (counterexample): with envelope `[0,…,8]`, sync marks at 0 and
5 and nominal line length 4, the code slices `[0,1,2,3]` (a fixed
nominal-length slice) for the first mark, while the claim's
between-consecutive-marks rule would slice `[0,1,2,3,4]`; the two
extraction rules disagree. -/
theorem extract_line_slices_not_between_marks :
    extract_line_slices [0, 1, 2, 3, 4, 5, 6, 7, 8] [0, 5] 4 ≠
      spec_extract_line_slices [0, 1, 2, 3, 4, 5, 6, 7, 8] [0, 5] 4 := by
  norm_num [extract_line_slices, spec_extract_line_slices]

/-- Claim C1 (amended): each image line is the fixed nominal-length slice of
the envelope starting at its SyncMark (the position of the next SyncMark is
not consulted), resampled to exactly 2080 samples; extraction stops at the
first SyncMark whose nominal-length slice would run past the end of the
envelope, dropping it and every later line. -/
theorem extract_lines_nominal_slices (resample : List ℚ → ℕ → List ℚ)
    (data : List ℚ) (sp : List ℕ) (spl : ℕ)
    (hres : ∀ l n, (resample l n).length = n) :
    extract_lines resample data sp spl =
      (sp.takeWhile (fun s => decide (s + spl ≤ data.length))).map
        (fun s => resample ((data.drop s).take spl) APT_PIXELS_PER_LINE) ∧
    ∀ line ∈ extract_lines resample data sp spl, line.length = APT_PIXELS_PER_LINE := by
  refine ⟨extract_lines_eq_takeWhile resample data sp spl, ?_⟩
  intro line hline
  rw [extract_lines_eq_takeWhile] at hline
  obtain ⟨s, _, rfl⟩ := List.mem_map.mp hline
  exact hres _ _

/-- Witness for claim C1's amended theorem: envelope `[1,2]`, sync marks at
0, 1 and 5, nominal line length 1. -/
theorem extract_lines_nominal_slices_witness :
    extract_lines resample_const [1, 2] [0, 1, 5] 1 =
      (([0, 1, 5] : List ℕ).takeWhile (fun s => decide (s + 1 ≤ ([1, 2] : List ℚ).length))).map
        (fun s => resample_const ((([1, 2] : List ℚ).drop s).take 1) APT_PIXELS_PER_LINE) ∧
    ∀ line ∈ extract_lines resample_const [1, 2] [0, 1, 5] 1,
      line.length = APT_PIXELS_PER_LINE :=
  extract_lines_nominal_slices resample_const [1, 2] [0, 1, 5] 1
    (fun l n => by simp [resample_const])

end DecodeApt

namespace DecodeApt

/-- Positivity of the nominal line length (10400 samples at the fixed
processing rate). -/
theorem samples_per_line_pos : 0 < samples_per_line := by
  norm_num [samples_per_line, APT_SAMPLE_RATE, APT_LINES_PER_SEC]

/-- Every fallback sync position keeps its whole nominal-length slice inside
the envelope. -/
theorem fallback_sync_positions_fit (envLen : ℕ) :
    ∀ s ∈ fallback_sync_positions envLen, s + samples_per_line ≤ envLen := by
  intro s hs
  simp only [fallback_sync_positions, List.mem_map, List.mem_range] at hs
  obtain ⟨i, hi, rfl⟩ := hs
  have h1 : i + 1 ≤ envLen / samples_per_line := hi
  have h2 : (i + 1) * samples_per_line ≤ envLen :=
    (Nat.le_div_iff_mul_le samples_per_line_pos).mp h1
  calc i * samples_per_line + samples_per_line = (i + 1) * samples_per_line := by ring
    _ ≤ envLen := h2

/-- Claim C2 (counterexample): a 200-sample noise envelope with no detected
sync marks is below the fallback threshold, and the claim then promises a
DecodedImage with `floor(200 / 10400) = 0` rows; instead the fallback
produces zero lines and `np.percentile` raises on the empty pixel array
(modelled `none`), so no image is produced at all. -/
theorem decode_apt_short_envelope_no_image :
    decode_apt_image resample_const (List.replicate 200 (0 : ℚ)) [] = none ∧
    (List.replicate 200 (0 : ℚ)).length / samples_per_line = 0 := by
  constructor
  · have hsync : decode_apt_sync_positions (List.replicate 200 (0 : ℚ)).length [] = [] := by
      rw [List.length_replicate]
      norm_num [decode_apt_sync_positions, fallback_sync_positions, samples_per_line,
        APT_SAMPLE_RATE, APT_LINES_PER_SEC]
    rw [decode_apt_image, decode_apt_lines, hsync]
    rfl
  · rw [List.length_replicate]
    norm_num [samples_per_line, APT_SAMPLE_RATE, APT_LINES_PER_SEC]

/-- Claim C2 (amended): for every envelope at least one nominal line long in
which fewer sync marks than the fallback threshold (10 for the raw entry
point) are detected, `decode_apt` emits sync marks at exact multiples of the
nominal line length starting at sample 0, and produces an image whose row
count equals `floor(envelope_length / nominal_samples_per_line)` without
raising.  (Envelopes shorter than one nominal line reach `np.percentile`
with an empty pixel array and raise; see the counterexample.) -/
theorem decode_apt_fallback_shape (resample : List ℚ → ℕ → List ℚ)
    (envelope : List ℚ) (detected : List ℕ)
    (hres : ∀ l n, (resample l n).length = n)
    (hdet : detected.length < 10)
    (hlen : samples_per_line ≤ envelope.length) :
    decode_apt_sync_positions envelope.length detected =
      (List.range (envelope.length / samples_per_line)).map
        (fun i => i * samples_per_line) ∧
    (decode_apt_lines resample envelope detected).length =
      envelope.length / samples_per_line ∧
    ∃ img, decode_apt_image resample envelope detected = some img ∧
      img.length = envelope.length / samples_per_line := by
  have hpos : decode_apt_sync_positions envelope.length detected =
      fallback_sync_positions envelope.length := by
    simp [decode_apt_sync_positions, hdet]
  have htake :
      (fallback_sync_positions envelope.length).takeWhile
        (fun s => decide (s + samples_per_line ≤ envelope.length)) =
      fallback_sync_positions envelope.length := by
    rw [List.takeWhile_eq_self_iff]
    intro s hs
    simpa using fallback_sync_positions_fit envelope.length s hs
  have hlines : decode_apt_lines resample envelope detected =
      (fallback_sync_positions envelope.length).map
        (fun s => resample ((envelope.drop s).take samples_per_line) APT_PIXELS_PER_LINE) := by
    rw [decode_apt_lines, hpos, extract_lines_eq_takeWhile, htake]
  have hlineslen : (decode_apt_lines resample envelope detected).length =
      envelope.length / samples_per_line := by
    rw [hlines]
    simp [fallback_sync_positions]
  refine ⟨by rw [hpos]; rfl, hlineslen, ?_⟩
  have hrows : 1 ≤ envelope.length / samples_per_line :=
    (Nat.one_le_div_iff samples_per_line_pos).mpr hlen
  have hnonnil : decode_apt_lines resample envelope detected ≠ [] := by
    intro h0
    rw [h0] at hlineslen
    simp at hlineslen
    omega
  have hlinelen : ∀ line ∈ decode_apt_lines resample envelope detected,
      line.length = APT_PIXELS_PER_LINE := by
    intro line hline
    rw [hlines] at hline
    obtain ⟨s, _, rfl⟩ := List.mem_map.mp hline
    exact hres _ _
  have hflat : (decode_apt_lines resample envelope detected).flatten ≠ [] := by
    intro h0
    obtain ⟨line, hline⟩ := List.exists_mem_of_ne_nil _ hnonnil
    have hl0 : line = [] := List.flatten_eq_nil_iff.mp h0 line hline
    have := hlinelen line hline
    rw [hl0] at this
    norm_num [APT_PIXELS_PER_LINE] at this
  have hisEmpty : (decode_apt_lines resample envelope detected).flatten.isEmpty = false := by
    simpa [List.isEmpty_iff] using hflat
  refine ⟨(decode_apt_lines resample envelope detected).map
      (fun row => row.map
        (normalize_pixel
          (np_percentile 2 (decode_apt_lines resample envelope detected).flatten)
          (np_percentile 98 (decode_apt_lines resample envelope detected).flatten))),
    ?_, ?_⟩
  · simp [decode_apt_image, normalize_image, hisEmpty]
  · simpa using hlineslen

/-- Witness for claim C2's amended theorem: an all-zero envelope exactly one
nominal line long (10400 samples), with no detected sync marks. -/
theorem decode_apt_fallback_shape_witness :
    decode_apt_sync_positions (List.replicate 10400 (0 : ℚ)).length [] =
      (List.range ((List.replicate 10400 (0 : ℚ)).length / samples_per_line)).map
        (fun i => i * samples_per_line) ∧
    (decode_apt_lines resample_const (List.replicate 10400 (0 : ℚ)) []).length =
      (List.replicate 10400 (0 : ℚ)).length / samples_per_line ∧
    ∃ img, decode_apt_image resample_const (List.replicate 10400 (0 : ℚ)) [] = some img ∧
      img.length = (List.replicate 10400 (0 : ℚ)).length / samples_per_line :=
  decode_apt_fallback_shape resample_const (List.replicate 10400 (0 : ℚ)) []
    (fun l n => by simp [resample_const])
    (by norm_num)
    (by rw [List.length_replicate]
        norm_num [samples_per_line, APT_SAMPLE_RATE, APT_LINES_PER_SEC])

end DecodeApt

namespace DecodeApt

/-- Indexing into a constant list yields the constant. -/
theorem getD_replicate_of_lt (c : ℚ) : ∀ (n i : ℕ), i < n →
    (List.replicate n c).getD i 0 = c
  | 0, _, h => absurd h (by omega)
  | n + 1, 0, _ => by simp [List.replicate_succ]
  | n + 1, i + 1, h => by
    rw [List.replicate_succ]
    simpa using getD_replicate_of_lt c n i (by omega)

/-- Sorting a constant list yields the constant list. -/
theorem np_sort_const (xs : List ℚ) (c : ℚ) (h : ∀ x ∈ xs, x = c) :
    np_sort xs = List.replicate xs.length c := by
  have hlen : (np_sort xs).length = xs.length := by simp [np_sort]
  have hmem : ∀ y ∈ np_sort xs, y = c := by
    intro y hy
    exact h y ((List.mem_insertionSort _).mp hy)
  have hrep := List.eq_replicate_length.mpr hmem
  rw [hlen] at hrep
  exact hrep

/-- On a nonempty constant list every percentile equals the constant. -/
theorem np_percentile_const (q : ℚ) (xs : List ℚ) (c : ℚ)
    (hq0 : 0 ≤ q) (hq1 : q ≤ 100) (hne : xs ≠ []) (h : ∀ x ∈ xs, x = c) :
    np_percentile q xs = c := by
  have hn : 1 ≤ xs.length := List.length_pos.mpr hne
  have hsort := np_sort_const xs c h
  have hn1 : (1 : ℚ) ≤ (xs.length : ℚ) := by exact_mod_cast hn
  have hpos0 : 0 ≤ q * ((xs.length : ℚ) - 1) / 100 := by
    apply div_nonneg _ (by norm_num)
    apply mul_nonneg hq0
    linarith
  have hpole : q * ((xs.length : ℚ) - 1) / 100 ≤ (xs.length : ℚ) - 1 := by
    rw [div_le_iff (by norm_num : (0 : ℚ) < 100)]
    nlinarith
  have hcast : ((xs.length - 1 : ℕ) : ℚ) = (xs.length : ℚ) - 1 := by
    have h : ((xs.length - 1 : ℕ) : ℚ) = (xs.length : ℚ) - (1 : ℕ) := Nat.cast_sub hn
    simpa using h
  have hfl : Int.floor (q * ((xs.length : ℚ) - 1) / 100) ≤ ((xs.length - 1 : ℕ) : ℤ) := by
    calc Int.floor (q * ((xs.length : ℚ) - 1) / 100)
        ≤ Int.floor ((xs.length : ℚ) - 1) := Int.floor_le_floor hpole
      _ = ((xs.length - 1 : ℕ) : ℤ) := by rw [← hcast, Int.floor_natCast]
  have hi : (Int.floor (q * ((xs.length : ℚ) - 1) / 100)).toNat < xs.length := by
    have h1 : (Int.floor (q * ((xs.length : ℚ) - 1) / 100)).toNat ≤ xs.length - 1 :=
      Int.toNat_le.mpr hfl
    omega
  simp only [np_percentile]
  rw [hsort]
  by_cases hbr : (Int.floor (q * ((xs.length : ℚ) - 1) / 100)).toNat + 1 < xs.length
  · rw [if_pos hbr]
    rw [getD_replicate_of_lt c _ _ hi, getD_replicate_of_lt c _ _ hbr]
    ring
  · rw [if_neg hbr, getD_replicate_of_lt c _ _ hi]

/-- Claim C10: normalization is only total when the 2nd and 98th percentiles
differ.  First part: on a nonempty constant image the percentiles coincide,
the rescaling divides by zero, and no pixel gets a well-defined 0-255 value
(all pixels are `none`).  Second part: when the 98th percentile strictly
exceeds the 2nd, every output pixel is a defined value in [0, 255]. -/
theorem normalize_image_percentile_range :
    (∀ (image : List (List ℚ)) (c : ℚ), image.flatten ≠ [] →
        (∀ x ∈ image.flatten, x = c) →
        normalize_image image =
          some (image.map (fun row => row.map (fun _ => (none : Option ℕ))))) ∧
    (∀ image : List (List ℚ),
        np_percentile 2 image.flatten < np_percentile 98 image.flatten →
        ∃ out, normalize_image image = some out ∧
          ∀ row ∈ out, ∀ px ∈ row, ∃ v, px = some v ∧ v ≤ 255) := by
  constructor
  · intro image c hne hc
    have h2 := np_percentile_const 2 image.flatten c (by norm_num) (by norm_num) hne hc
    have h98 := np_percentile_const 98 image.flatten c (by norm_num) (by norm_num) hne hc
    have hisEmpty : image.flatten.isEmpty = false := by
      simpa [List.isEmpty_iff] using hne
    have hfun : normalize_pixel c c = fun _ => (none : Option ℕ) :=
      funext fun x => by simp [normalize_pixel]
    simp [normalize_image, hisEmpty, h2, h98, hfun]
  · intro image hlt
    have hflat : image.flatten ≠ [] := by
      intro h0
      rw [h0] at hlt
      norm_num [np_percentile, np_sort] at hlt
    have hisEmpty : image.flatten.isEmpty = false := by
      simpa [List.isEmpty_iff] using hflat
    have hne2 : np_percentile 98 image.flatten ≠ np_percentile 2 image.flatten :=
      ne_of_gt hlt
    refine ⟨image.map (fun row => row.map
        (normalize_pixel (np_percentile 2 image.flatten)
          (np_percentile 98 image.flatten))),
      by simp [normalize_image, hisEmpty], ?_⟩
    intro row hrow px hpx
    obtain ⟨r0, _, rfl⟩ := List.mem_map.mp hrow
    obtain ⟨x, _, rfl⟩ := List.mem_map.mp hpx
    refine ⟨np_astype_uint8
        ((min (max x (np_percentile 2 image.flatten)) (np_percentile 98 image.flatten) -
          np_percentile 2 image.flatten) /
          (np_percentile 98 image.flatten - np_percentile 2 image.flatten) * 255),
      by simp [normalize_pixel, hne2], ?_⟩
    have hd : 0 < np_percentile 98 image.flatten - np_percentile 2 image.flatten :=
      sub_pos.mpr hlt
    have hclip : min (max x (np_percentile 2 image.flatten)) (np_percentile 98 image.flatten) -
        np_percentile 2 image.flatten ≤
        np_percentile 98 image.flatten - np_percentile 2 image.flatten := by
      have hm : min (max x (np_percentile 2 image.flatten)) (np_percentile 98 image.flatten) ≤
          np_percentile 98 image.flatten := min_le_right _ _
      linarith
    have hfrac : (min (max x (np_percentile 2 image.flatten)) (np_percentile 98 image.flatten) -
        np_percentile 2 image.flatten) /
        (np_percentile 98 image.flatten - np_percentile 2 image.flatten) ≤ 1 :=
      (div_le_one hd).mpr hclip
    have hy : (min (max x (np_percentile 2 image.flatten)) (np_percentile 98 image.flatten) -
        np_percentile 2 image.flatten) /
        (np_percentile 98 image.flatten - np_percentile 2 image.flatten) * 255 ≤ 255 := by
      nlinarith
    have hfloor : Int.floor
        ((min (max x (np_percentile 2 image.flatten)) (np_percentile 98 image.flatten) -
          np_percentile 2 image.flatten) /
          (np_percentile 98 image.flatten - np_percentile 2 image.flatten) * 255) ≤ 255 := by
      have h255 := Int.floor_le_floor hy
      simpa using h255
    rw [np_astype_uint8]
    exact Int.toNat_le.mpr (by exact_mod_cast hfloor)

/-- Witness for claim C10: the constant image `[[1,1],[1,1]]` yields only
undefined pixels, while `[[0],[100]]` (percentiles 2 and 98) yields defined
pixels within [0, 255]. -/
theorem normalize_image_percentile_range_witness :
    normalize_image [[1, 1], [1, 1]] =
      some (([[1, 1], [1, 1]] : List (List ℚ)).map
        (fun row => row.map (fun _ => (none : Option ℕ)))) ∧
    ∃ out, normalize_image [[0], [100]] = some out ∧
      ∀ row ∈ out, ∀ px ∈ row, ∃ v, px = some v ∧ v ≤ 255 := by
  constructor
  · exact normalize_image_percentile_range.1 [[1, 1], [1, 1]] 1
      (by simp)
      (by intro x hx; simpa using hx)
  · exact normalize_image_percentile_range.2 [[0], [100]]
      (by norm_num [np_percentile, np_sort, List.getD])

end DecodeApt

namespace Scheduler

/-- One scored candidate item of `generate_schedule`
(src/python/ml/scheduler_optimizer.py): the pass's satellite name, AOS/LOS
as (naive UTC) seconds, and the attached success score
`pred['success_probability']`. -/
structure ScoredPass where
  satellite : String
  aos : ℚ
  los : ℚ
  score : ℚ
deriving DecidableEq, Repr

/-- The schedule constraints dictionary of scheduler_optimizer.py. -/
structure Constraints where
  min_gap_minutes : ℚ
  max_captures_per_day : ℕ
  min_success_probability : ℚ
  max_consecutive_same_sat : ℕ
deriving DecidableEq, Repr

/-- Calendar-day key of a timestamp, modelling `aos.strftime('%Y-%m-%d')`:
two instants share a key iff they fall in the same UTC day. -/
def dayIndex (t : ℚ) : ℤ := Int.floor (t / 86400)

/-- Chronological order on scored passes (`key=lambda x: x['scheduled_aos']`,
ISO strings compare chronologically). -/
def aosLe (a b : ScoredPass) : Prop := a.aos ≤ b.aos

instance : DecidableRel aosLe := fun a b => inferInstanceAs (Decidable (a.aos ≤ b.aos))

instance : IsTotal ScoredPass aosLe := ⟨fun a b => le_total a.aos b.aos⟩

instance : IsTrans ScoredPass aosLe := ⟨fun _ _ _ hab hbc => le_trans hab hbc⟩

/-- Score-descending order (`sort(key=lambda x: x['score'], reverse=True)`). -/
def scoreGe (a b : ScoredPass) : Prop := b.score ≤ a.score

instance : DecidableRel scoreGe := fun a b => inferInstanceAs (Decidable (b.score ≤ a.score))

instance : IsTotal ScoredPass scoreGe := ⟨fun a b => le_total b.score a.score⟩

instance : IsTrans ScoredPass scoreGe := ⟨fun _ _ _ hab hbc => le_trans hbc hab⟩

/-- Python's stable `list.sort(key=score, reverse=True)`, modelled by the
(stable) insertion sort on the score-descending order. -/
def sort_by_score_desc (l : List ScoredPass) : List ScoredPass := l.insertionSort scoreGe

/-- Python's stable `schedule.sort(key=lambda x: x['scheduled_aos'])`. -/
def sort_by_aos (l : List ScoredPass) : List ScoredPass := l.insertionSort aosLe

/-- The minimum-gap rejection test of `_apply_constraints` (lines 122-126):
skip when a previous accepted LOS exists and
`(aos - last_end_time).total_seconds() / 60 < min_gap_minutes`. -/
def gap_too_small (c : Constraints) (lastEnd : Option ℚ) (aos : ℚ) : Bool :=
  match lastEnd with
  | none => false
  | some le => decide ((aos - le) / 60 < c.min_gap_minutes)

/-- The greedy accept/reject walk of `_apply_constraints`
(scheduler_optimizer.py lines 95-154), with the loop state made explicit:
`lastEnd` is `last_end_time`, `counts` is `captures_by_day` (0 for missing
keys, as `dict.get(day_key, 0)`), `consec` is `consecutive_same_sat`, and
`lastSat` is `last_satellite`.  The checks run in source order: minimum
score, minimum gap, daily cap, then the same-satellite run check, which
increments the counter even when it then rejects; acceptance appends the
pass and updates the state. -/
def apply_go (c : Constraints) (lastEnd : Option ℚ) (counts : ℤ → ℕ) (consec : ℕ)
    (lastSat : Option String) : List ScoredPass → List ScoredPass
  | [] => []
  | p :: rest =>
    if p.score < c.min_success_probability then
      apply_go c lastEnd counts consec lastSat rest
    else if gap_too_small c lastEnd p.aos then
      apply_go c lastEnd counts consec lastSat rest
    else if c.max_captures_per_day ≤ counts (dayIndex p.aos) then
      apply_go c lastEnd counts consec lastSat rest
    else if lastSat = some p.satellite then
      if c.max_consecutive_same_sat ≤ consec + 1 then
        apply_go c lastEnd counts (consec + 1) lastSat rest
      else
        p :: apply_go c (some p.los)
          (fun d => if d = dayIndex p.aos then counts d + 1 else counts d)
          (consec + 1) (some p.satellite) rest
    else
      p :: apply_go c (some p.los)
        (fun d => if d = dayIndex p.aos then counts d + 1 else counts d)
        0 (some p.satellite) rest

/-- The `_apply_constraints` method: run the greedy walk from the empty
state, then re-sort the accepted schedule chronologically (line 157). -/
def apply_constraints (c : Constraints) (scored : List ScoredPass) : List ScoredPass :=
  sort_by_aos (apply_go c none (fun _ => 0) 0 none scored)

/-- The `generate_schedule` method (lines 50-87): sort the scored candidates
by success score descending (a stable sort, so ties keep the AOS order the
pass predictor produced, `get_upcoming_passes` having sorted by AOS), then
apply the constraints. -/
def generate_schedule (c : Constraints) (passes : List ScoredPass) : List ScoredPass :=
  apply_constraints c (sort_by_score_desc passes)

end Scheduler

namespace Scheduler

/-- Any pass accepted first after a previous accepted LOS `le` respects the
minimum gap: the gap check rejected everything closer. -/
theorem apply_go_head_gap (c : Constraints) :
    ∀ (items : List ScoredPass) (counts : ℤ → ℕ) (consec : ℕ) (lastSat : Option String)
      (le : ℚ) (q : ScoredPass) (tail : List ScoredPass),
      apply_go c (some le) counts consec lastSat items = q :: tail →
      le + c.min_gap_minutes * 60 ≤ q.aos := by
  intro items
  induction items with
  | nil =>
    intro counts consec lastSat le q tail h
    simp [apply_go] at h
  | cons p rest ih =>
    intro counts consec lastSat le q tail h
    rw [apply_go] at h
    have hgap : ¬ ((p.aos - le) / 60 < c.min_gap_minutes) →
        le + c.min_gap_minutes * 60 ≤ p.aos := by
      intro hn
      push_neg at hn
      have h60 := (le_div_iff (by norm_num : (0 : ℚ) < 60)).mp hn
      linarith
    split_ifs at h with h1 h2 h3 h4 h5
    · exact ih _ _ _ _ _ _ h
    · exact ih _ _ _ _ _ _ h
    · exact ih _ _ _ _ _ _ h
    · exact ih _ _ _ _ _ _ h
    · obtain ⟨rfl, -⟩ := List.cons_eq_cons.mp h
      apply hgap
      simpa [gap_too_small] using h2
    · obtain ⟨rfl, -⟩ := List.cons_eq_cons.mp h
      apply hgap
      simpa [gap_too_small] using h2

/-- Consecutive accepted passes (in acceptance order) respect the minimum
gap, and—given well-formed passes and a nonnegative gap—are in AOS order. -/
theorem apply_go_chain (c : Constraints) (hg : 0 ≤ c.min_gap_minutes) :
    ∀ (items : List ScoredPass) (lastEnd : Option ℚ) (counts : ℤ → ℕ) (consec : ℕ)
      (lastSat : Option String),
      (∀ p ∈ items, p.aos ≤ p.los) →
      List.Chain' (fun a b => c.min_gap_minutes * 60 ≤ b.aos - a.los ∧ aosLe a b)
        (apply_go c lastEnd counts consec lastSat items) := by
  intro items
  induction items with
  | nil =>
    intro lastEnd counts consec lastSat _
    simp [apply_go]
  | cons p rest ih =>
    intro lastEnd counts consec lastSat hwf
    have hwf' : ∀ x ∈ rest, x.aos ≤ x.los := fun x hx => hwf x (List.mem_cons_of_mem _ hx)
    have hp : p.aos ≤ p.los := hwf p (List.mem_cons_self _ _)
    have hg60 : 0 ≤ c.min_gap_minutes * 60 := by
      have : (0 : ℚ) ≤ 60 := by norm_num
      exact mul_nonneg hg this
    have hhead : ∀ counts2 consec2 sat2,
        (∀ y ∈ (apply_go c (some p.los) counts2 consec2 sat2 rest).head?,
          c.min_gap_minutes * 60 ≤ y.aos - p.los ∧ aosLe p y) := by
      intro counts2 consec2 sat2 y hy
      cases hl : apply_go c (some p.los) counts2 consec2 sat2 rest with
      | nil => rw [hl] at hy; simp at hy
      | cons a t =>
        rw [hl] at hy
        simp only [List.head?_cons, Option.mem_def, Option.some.injEq] at hy
        subst hy
        have hb := apply_go_head_gap c rest counts2 consec2 sat2 p.los a t hl
        constructor
        · linarith
        · show p.aos ≤ a.aos
          linarith
    rw [apply_go]
    split_ifs with h1 h2 h3 h4 h5
    · exact ih _ _ _ _ hwf'
    · exact ih _ _ _ _ hwf'
    · exact ih _ _ _ _ hwf'
    · exact ih _ _ _ _ hwf'
    · exact List.chain'_cons'.mpr ⟨hhead _ _ _, ih _ _ _ _ hwf'⟩
    · exact List.chain'_cons'.mpr ⟨hhead _ _ _, ih _ _ _ _ hwf'⟩

end Scheduler

namespace Scheduler

/-- The per-day cap invariant: the walk never accepts more day-`d` passes
than the remaining budget `max_captures_per_day - counts d`. -/
theorem apply_go_day_counts (c : Constraints) :
    ∀ (items : List ScoredPass) (lastEnd : Option ℚ) (counts : ℤ → ℕ) (consec : ℕ)
      (lastSat : Option String) (d : ℤ),
      ((apply_go c lastEnd counts consec lastSat items).filter
          (fun q => decide (dayIndex q.aos = d))).length
        ≤ c.max_captures_per_day - counts d := by
  intro items
  induction items with
  | nil =>
    intro lastEnd counts consec lastSat d
    simp [apply_go]
  | cons p rest ih =>
    intro lastEnd counts consec lastSat d
    rw [apply_go]
    split_ifs with h1 h2 h3 h4 h5
    · exact ih _ _ _ _ _
    · exact ih _ _ _ _ _
    · exact ih _ _ _ _ _
    · exact ih _ _ _ _ _
    · have hcnt : counts (dayIndex p.aos) < c.max_captures_per_day := Nat.lt_of_not_le h3
      by_cases hd : dayIndex p.aos = d
      · have hih := ih (some p.los)
          (fun d' => if d' = dayIndex p.aos then counts d' + 1 else counts d')
          (consec + 1) (some p.satellite) d
        rw [if_pos hd.symm] at hih
        rw [List.filter_cons, if_pos (by simpa using hd)]
        simp only [List.length_cons]
        have hd2 : counts d = counts (dayIndex p.aos) := by rw [hd]
        omega
      · have hih := ih (some p.los)
          (fun d' => if d' = dayIndex p.aos then counts d' + 1 else counts d')
          (consec + 1) (some p.satellite) d
        rw [if_neg (fun h => hd h.symm)] at hih
        rw [List.filter_cons, if_neg (by simpa using hd)]
        exact hih
    · have hcnt : counts (dayIndex p.aos) < c.max_captures_per_day := Nat.lt_of_not_le h3
      by_cases hd : dayIndex p.aos = d
      · have hih := ih (some p.los)
          (fun d' => if d' = dayIndex p.aos then counts d' + 1 else counts d')
          0 (some p.satellite) d
        rw [if_pos hd.symm] at hih
        rw [List.filter_cons, if_pos (by simpa using hd)]
        simp only [List.length_cons]
        have hd2 : counts d = counts (dayIndex p.aos) := by rw [hd]
        omega
      · have hih := ih (some p.los)
          (fun d' => if d' = dayIndex p.aos then counts d' + 1 else counts d')
          0 (some p.satellite) d
        rw [if_neg (fun h => hd h.symm)] at hih
        rw [List.filter_cons, if_neg (by simpa using hd)]
        exact hih

/-- Length of the leading same-satellite run of a schedule. -/
def lead_run (s : String) (l : List ScoredPass) : ℕ :=
  (l.takeWhile (fun q => decide (q.satellite = s))).length

/-- Budget invariant for the leading same-satellite run: while the last
accepted satellite is `s` with `consec` consecutive acceptances recorded,
the walk can only extend the current `s` run to `max_consecutive_same_sat -
consec - 1` more passes (or start no `s` run at all). -/
theorem apply_go_lead_run (c : Constraints) :
    ∀ (items : List ScoredPass) (lastEnd : Option ℚ) (counts : ℤ → ℕ) (consec : ℕ)
      (s : String),
      lead_run s (apply_go c lastEnd counts consec (some s) items) + consec + 1 ≤
          c.max_consecutive_same_sat ∨
        lead_run s (apply_go c lastEnd counts consec (some s) items) = 0 := by
  intro items
  induction items with
  | nil =>
    intro lastEnd counts consec s
    right
    simp [apply_go, lead_run]
  | cons p rest ih =>
    intro lastEnd counts consec s
    rw [apply_go]
    split_ifs with h1 h2 h3 h4 h5
    · exact ih _ _ _ _
    · exact ih _ _ _ _
    · exact ih _ _ _ _
    · rcases ih lastEnd counts (consec + 1) s with h | h
      · left; omega
      · right; exact h
    · -- accepted with the same satellite as the previous accepted pass
      have hs : p.satellite = s := by
        have := h4
        simp only [Option.some.injEq] at this
        exact this.symm
      have hlt : consec + 1 < c.max_consecutive_same_sat := Nat.lt_of_not_le h5
      left
      have hcons : lead_run s
          (p :: apply_go c (some p.los)
            (fun d => if d = dayIndex p.aos then counts d + 1 else counts d)
            (consec + 1) (some p.satellite) rest) =
          1 + lead_run s (apply_go c (some p.los)
            (fun d => if d = dayIndex p.aos then counts d + 1 else counts d)
            (consec + 1) (some p.satellite) rest) := by
        simp [lead_run, List.takeWhile, hs]
        omega
      rw [hcons, hs]
      rcases ih (some p.los)
          (fun d => if d = dayIndex p.aos then counts d + 1 else counts d)
          (consec + 1) s with h | h
      · omega
      · omega
    · -- accepted with a different satellite: no leading s-run
      right
      have hs : p.satellite ≠ s := by
        intro hcontr
        exact h4 (by rw [hcontr])
      simp [lead_run, List.takeWhile, hs]

/-- A constant-satellite block at the front of a list is no longer than the
leading run. -/
theorem length_le_lead_run (s : String) :
    ∀ (mid rest : List ScoredPass), (∀ x ∈ mid, x.satellite = s) →
      mid.length ≤ lead_run s (mid ++ rest) := by
  intro mid
  induction mid with
  | nil => intro rest _; simp
  | cons x mid' ih =>
    intro rest hmid
    have hx : x.satellite = s := hmid x (List.mem_cons_self _ _)
    have hmid' : ∀ y ∈ mid', y.satellite = s := fun y hy => hmid y (List.mem_cons_of_mem _ hy)
    have hlr : lead_run s ((x :: mid') ++ rest) = lead_run s (mid' ++ rest) + 1 := by
      simp [lead_run, List.takeWhile, hx]
    rw [List.length_cons, hlr]
    have hih := ih rest hmid'
    omega

end Scheduler

namespace Scheduler

/-- No contiguous block of accepted same-satellite passes is longer than
`max_consecutive_same_sat` (which must be at least 1; with a cap of 0 the
walk still accepts a first pass of a new satellite). -/
theorem apply_go_no_long_run (c : Constraints) (hmax : 1 ≤ c.max_consecutive_same_sat) :
    ∀ (items : List ScoredPass) (lastEnd : Option ℚ) (counts : ℤ → ℕ) (consec : ℕ)
      (lastSat : Option String) (pre mid suf : List ScoredPass) (s : String),
      apply_go c lastEnd counts consec lastSat items = pre ++ mid ++ suf →
      (∀ x ∈ mid, x.satellite = s) →
      mid.length ≤ c.max_consecutive_same_sat := by
  intro items
  induction items with
  | nil =>
    intro lastEnd counts consec lastSat pre mid suf s h _
    rw [apply_go] at h
    rcases List.append_eq_nil.mp h.symm with ⟨h2, -⟩
    rcases List.append_eq_nil.mp h2 with ⟨-, hmid2⟩
    simp [hmid2]
  | cons p rest ih =>
    intro lastEnd counts consec lastSat pre mid suf s h hmid
    rw [apply_go] at h
    split_ifs at h with h1 h2 h3 h4 h5
    · exact ih _ _ _ _ _ _ _ _ h hmid
    · exact ih _ _ _ _ _ _ _ _ h hmid
    · exact ih _ _ _ _ _ _ _ _ h hmid
    · exact ih _ _ _ _ _ _ _ _ h hmid
    · -- accepted, same satellite as before: run budget is consec + 1
      cases pre with
      | cons q pre' =>
        rw [List.cons_append, List.cons_append] at h
        obtain ⟨-, h'⟩ := List.cons_eq_cons.mp h
        exact ih _ _ _ _ pre' mid suf s h' hmid
      | nil =>
        rw [List.nil_append] at h
        cases mid with
        | nil => simp
        | cons m mid' =>
          rw [List.cons_append] at h
          obtain ⟨hm, h'⟩ := List.cons_eq_cons.mp h
          have hps : m.satellite = s := hmid m (List.mem_cons_self _ _)
          have hpm : p.satellite = s := by rw [hm]; exact hps
          have hmid' : ∀ y ∈ mid', y.satellite = s :=
            fun y hy => hmid y (List.mem_cons_of_mem _ hy)
          have hlen : mid'.length ≤ lead_run s
              (apply_go c (some p.los)
                (fun d => if d = dayIndex p.aos then counts d + 1 else counts d)
                (consec + 1) (some p.satellite) rest) := by
            rw [h']
            exact length_le_lead_run s mid' suf hmid'
          rw [hpm] at hlen
          rcases apply_go_lead_run c rest (some p.los)
              (fun d => if d = dayIndex p.aos then counts d + 1 else counts d)
              (consec + 1) s with hb | hb
          · simp only [List.length_cons]
            omega
          · simp only [List.length_cons]
            omega
    · -- accepted, different satellite: run budget resets to 0
      cases pre with
      | cons q pre' =>
        rw [List.cons_append, List.cons_append] at h
        obtain ⟨-, h'⟩ := List.cons_eq_cons.mp h
        exact ih _ _ _ _ pre' mid suf s h' hmid
      | nil =>
        rw [List.nil_append] at h
        cases mid with
        | nil => simp
        | cons m mid' =>
          rw [List.cons_append] at h
          obtain ⟨hm, h'⟩ := List.cons_eq_cons.mp h
          have hps : m.satellite = s := hmid m (List.mem_cons_self _ _)
          have hpm : p.satellite = s := by rw [hm]; exact hps
          have hmid' : ∀ y ∈ mid', y.satellite = s :=
            fun y hy => hmid y (List.mem_cons_of_mem _ hy)
          have hlen : mid'.length ≤ lead_run s
              (apply_go c (some p.los)
                (fun d => if d = dayIndex p.aos then counts d + 1 else counts d)
                0 (some p.satellite) rest) := by
            rw [h']
            exact length_le_lead_run s mid' suf hmid'
          rw [hpm] at hlen
          rcases apply_go_lead_run c rest (some p.los)
              (fun d => if d = dayIndex p.aos then counts d + 1 else counts d)
              0 s with hb | hb
          · simp only [List.length_cons]
            omega
          · simp only [List.length_cons]
            omega

end Scheduler

namespace Scheduler

/-- The acceptance-order schedule is already in AOS order, so the final
chronological re-sort leaves it unchanged. -/
theorem apply_go_sorted_aos (c : Constraints) (hg : 0 ≤ c.min_gap_minutes)
    (items : List ScoredPass) (hwf : ∀ p ∈ items, p.aos ≤ p.los) :
    List.Sorted aosLe (apply_go c none (fun _ => 0) 0 none items) := by
  have hch := apply_go_chain c hg items none (fun _ => 0) 0 none hwf
  have hch2 : List.Chain' aosLe (apply_go c none (fun _ => 0) 0 none items) :=
    hch.imp (fun _ _ h => h.2)
  exact List.chain'_iff_pairwise.mp hch2

/-- Claim C4: every schedule `generate_schedule` produces from well-formed
candidates (AOS ≤ LOS, the Pass data-model invariant) under a nonnegative
minimum gap and a same-satellite cap of at least 1 satisfies, on the final
AOS-ordered output: consecutive captures are separated by at least
`min_gap_minutes * 60` seconds from the previous LOS, no calendar day holds
more than `max_captures_per_day` captures, and no contiguous same-satellite
run exceeds `max_consecutive_same_sat`. -/
theorem generate_schedule_constraints (c : Constraints) (passes : List ScoredPass)
    (hwf : ∀ p ∈ passes, p.aos ≤ p.los)
    (hg : 0 ≤ c.min_gap_minutes)
    (hmax : 1 ≤ c.max_consecutive_same_sat) :
    List.Chain' (fun a b => c.min_gap_minutes * 60 ≤ b.aos - a.los)
      (generate_schedule c passes) ∧
    (∀ d : ℤ, ((generate_schedule c passes).filter
        (fun q => decide (dayIndex q.aos = d))).length ≤ c.max_captures_per_day) ∧
    (∀ (pre mid suf : List ScoredPass) (s : String),
        generate_schedule c passes = pre ++ mid ++ suf →
        (∀ x ∈ mid, x.satellite = s) →
        mid.length ≤ c.max_consecutive_same_sat) := by
  have hwf2 : ∀ p ∈ sort_by_score_desc passes, p.aos ≤ p.los := by
    intro p hp
    rw [sort_by_score_desc] at hp
    exact hwf p ((List.mem_insertionSort _).mp hp)
  have hsorted := apply_go_sorted_aos c hg (sort_by_score_desc passes) hwf2
  have heq : generate_schedule c passes =
      apply_go c none (fun _ => 0) 0 none (sort_by_score_desc passes) := by
    rw [generate_schedule, apply_constraints, sort_by_aos]
    exact hsorted.insertionSort_eq
  refine ⟨?_, ?_, ?_⟩
  · rw [heq]
    exact (apply_go_chain c hg (sort_by_score_desc passes) none (fun _ => 0) 0 none
      hwf2).imp (fun _ _ h => h.1)
  · intro d
    rw [heq]
    have := apply_go_day_counts c (sort_by_score_desc passes) none (fun _ => 0) 0 none d
    omega
  · intro pre mid suf s hsplit hmid
    rw [heq] at hsplit
    exact apply_go_no_long_run c hmax (sort_by_score_desc passes) none (fun _ => 0) 0 none
      pre mid suf s hsplit hmid

/-- Witness for claim C4 at a concrete two-pass candidate list. -/
theorem generate_schedule_constraints_witness :
    List.Chain' (fun a b => (30 : ℚ) * 60 ≤ b.aos - a.los)
      (generate_schedule ⟨30, 8, 3/10, 3⟩
        [⟨"NOAA 15", 0, 600, 1/2⟩, ⟨"NOAA 18", 10000, 10600, 1/2⟩]) ∧
    (∀ d : ℤ, ((generate_schedule ⟨30, 8, 3/10, 3⟩
        [⟨"NOAA 15", 0, 600, 1/2⟩, ⟨"NOAA 18", 10000, 10600, 1/2⟩]).filter
        (fun q => decide (dayIndex q.aos = d))).length ≤ 8) ∧
    (∀ (pre mid suf : List ScoredPass) (s : String),
        generate_schedule ⟨30, 8, 3/10, 3⟩
          [⟨"NOAA 15", 0, 600, 1/2⟩, ⟨"NOAA 18", 10000, 10600, 1/2⟩] =
          pre ++ mid ++ suf →
        (∀ x ∈ mid, x.satellite = s) →
        mid.length ≤ 3) :=
  generate_schedule_constraints ⟨30, 8, 3/10, 3⟩
    [⟨"NOAA 15", 0, 600, 1/2⟩, ⟨"NOAA 18", 10000, 10600, 1/2⟩]
    (by intro p hp
        rcases List.mem_cons.mp hp with h | h
        · rw [h]; norm_num
        · rcases List.mem_cons.mp h with h2 | h2
          · rw [h2]; norm_num
          · simp at h2)
    (by norm_num)
    (by norm_num)

end Scheduler

namespace Scheduler

/-- Inserting an element that fails a predicate does not change the filtered
list. -/
theorem filter_orderedInsert_of_neg (p : ScoredPass → Bool) (a : ScoredPass)
    (hpa : p a = false) :
    ∀ l : List ScoredPass, ((l.orderedInsert scoreGe a).filter p) = l.filter p := by
  intro l
  induction l with
  | nil => simp [List.orderedInsert, List.filter, hpa]
  | cons b t ih =>
    rw [List.orderedInsert]
    by_cases h : scoreGe a b
    · rw [if_pos h]
      simp [List.filter_cons, hpa]
    · rw [if_neg h]
      rw [List.filter_cons, List.filter_cons]
      by_cases hb : p b
      · rw [if_pos hb, if_pos hb, ih]
      · rw [if_neg hb, if_neg hb, ih]

/-- Inserting an element that satisfies a predicate which no strictly
higher-scored element satisfies places it at the front of the filtered
list: the insertion-sort model of Python's stable sort is stable. -/
theorem filter_orderedInsert_of_pos (p : ScoredPass → Bool) (a : ScoredPass)
    (hpa : p a = true) (hskip : ∀ b, ¬ scoreGe a b → p b = false) :
    ∀ l : List ScoredPass, ((l.orderedInsert scoreGe a).filter p) = a :: l.filter p := by
  intro l
  induction l with
  | nil => simp [List.orderedInsert, List.filter, hpa]
  | cons b t ih =>
    rw [List.orderedInsert]
    by_cases h : scoreGe a b
    · rw [if_pos h]
      simp [List.filter_cons, hpa]
    · rw [if_neg h]
      rw [List.filter_cons]
      rw [hskip b h]
      simp only [Bool.false_eq_true, if_false]
      rw [ih, List.filter_cons, hskip b h]
      simp

/-- Stability of the score-descending sort: restricting to any fixed score
value preserves the original order of the candidates (Python's `list.sort`
is stable, and insertion sort models it). -/
theorem filter_sort_by_score_desc (sc : ℚ) :
    ∀ l : List ScoredPass,
      (sort_by_score_desc l).filter (fun p => decide (p.score = sc)) =
        l.filter (fun p => decide (p.score = sc)) := by
  intro l
  induction l with
  | nil => rfl
  | cons a t ih =>
    rw [sort_by_score_desc, List.insertionSort]
    by_cases ha : a.score = sc
    · have hpa : (fun p => decide (p.score = sc)) a = true := by simpa using ha
      have hskip : ∀ b, ¬ scoreGe a b → (fun p => decide (p.score = sc)) b = false := by
        intro b hb
        have : a.score < b.score := lt_of_not_le hb
        simp only [decide_eq_false_iff_not]
        intro hbs
        rw [ha] at this
        rw [hbs] at this
        exact lt_irrefl _ this
      rw [filter_orderedInsert_of_pos _ a hpa hskip]
      rw [← sort_by_score_desc, ih]
      simp [ha]
    · have hpa : (fun p => decide (p.score = sc)) a = false := by simpa using ha
      rw [filter_orderedInsert_of_neg _ a hpa]
      rw [← sort_by_score_desc, ih]
      simp [ha]

/-- Claim C5: the schedule builder is deterministic — identical inputs give
identical outputs; the score sort is stable so equal scores keep the input
(AOS) order, and restricted to any fixed score the sorted candidates remain
in AOS order when the input was AOS-ordered; the final schedule is emitted
in AOS order; and the candidate list is genuinely sorted score-descending. -/
theorem generate_schedule_deterministic (c : Constraints) (passes : List ScoredPass)
    (hsorted : List.Sorted aosLe passes) :
    generate_schedule c passes = generate_schedule c passes ∧
    (∀ sc : ℚ,
      (sort_by_score_desc passes).filter (fun p => decide (p.score = sc)) =
        passes.filter (fun p => decide (p.score = sc)) ∧
      List.Sorted aosLe
        ((sort_by_score_desc passes).filter (fun p => decide (p.score = sc)))) ∧
    List.Sorted aosLe (generate_schedule c passes) ∧
    List.Sorted scoreGe (sort_by_score_desc passes) := by
  refine ⟨rfl, ?_, ?_, ?_⟩
  · intro sc
    refine ⟨filter_sort_by_score_desc sc passes, ?_⟩
    rw [filter_sort_by_score_desc sc passes]
    exact hsorted.filter _
  · rw [generate_schedule, apply_constraints, sort_by_aos]
    exact List.sorted_insertionSort aosLe _
  · rw [sort_by_score_desc]
    exact List.sorted_insertionSort scoreGe passes

/-- Witness for claim C5: two candidates with equal scores in AOS order. -/
theorem generate_schedule_deterministic_witness :
    generate_schedule ⟨30, 8, 3/10, 3⟩
        [⟨"NOAA 15", 0, 600, 1/2⟩, ⟨"NOAA 18", 10000, 10600, 1/2⟩] =
      generate_schedule ⟨30, 8, 3/10, 3⟩
        [⟨"NOAA 15", 0, 600, 1/2⟩, ⟨"NOAA 18", 10000, 10600, 1/2⟩] ∧
    (∀ sc : ℚ,
      (sort_by_score_desc [⟨"NOAA 15", 0, 600, 1/2⟩, ⟨"NOAA 18", 10000, 10600, 1/2⟩]).filter
          (fun p => decide (p.score = sc)) =
        ([⟨"NOAA 15", 0, 600, 1/2⟩, ⟨"NOAA 18", 10000, 10600, 1/2⟩] :
          List ScoredPass).filter (fun p => decide (p.score = sc)) ∧
      List.Sorted aosLe
        ((sort_by_score_desc
            [⟨"NOAA 15", 0, 600, 1/2⟩, ⟨"NOAA 18", 10000, 10600, 1/2⟩]).filter
          (fun p => decide (p.score = sc)))) ∧
    List.Sorted aosLe (generate_schedule ⟨30, 8, 3/10, 3⟩
      [⟨"NOAA 15", 0, 600, 1/2⟩, ⟨"NOAA 18", 10000, 10600, 1/2⟩]) ∧
    List.Sorted scoreGe (sort_by_score_desc
      [⟨"NOAA 15", 0, 600, 1/2⟩, ⟨"NOAA 18", 10000, 10600, 1/2⟩]) :=
  generate_schedule_deterministic ⟨30, 8, 3/10, 3⟩
    [⟨"NOAA 15", 0, 600, 1/2⟩, ⟨"NOAA 18", 10000, 10600, 1/2⟩]
    (by simp [List.sorted_cons, aosLe])

end Scheduler

namespace Orchestrator

/-- Pre-AOS capture margin, `CONFIG['pre_aos_margin_sec']`
(src/python/schedule_captures.py line 39). -/
def PRE_AOS_MARGIN_SEC : ℚ := 30

/-- Post-LOS capture margin, `CONFIG['post_los_margin_sec']` (line 40). -/
def POST_LOS_MARGIN_SEC : ℚ := 30

/-- Behaviour of the external capture process invoked by `execute_capture`:
it either runs for `runTime` seconds and exits with `code`, or its binary is
absent (`FileNotFoundError`). -/
inductive ProcBehavior where
  | exits (code : ℤ) (runTime : ℚ)
  | missing
deriving DecidableEq, Repr

/-- The capture duration of `execute_capture` (line 217):
`pass duration + pre-AOS margin + post-LOS margin`, where the pass duration
is `LOS - AOS` (computed in `get_upcoming_passes`, line 130). -/
def capture_duration_sec (passDurationSec : ℚ) : ℚ :=
  passDurationSec + PRE_AOS_MARGIN_SEC + POST_LOS_MARGIN_SEC

/-- The bound handed to `subprocess.run(..., timeout=duration_sec + 60)`
(line 259): the capture duration plus a fixed 60-second grace period. -/
def capture_timeout_sec (passDurationSec : ℚ) : ℚ :=
  capture_duration_sec passDurationSec + 60

/-- The outcome of `execute_capture` (lines 258-274): `some ()` stands for
the returned output-file path; `none` for each caught failure — the process
outliving the timeout (`subprocess.TimeoutExpired`), a non-zero exit status,
or a missing capture binary (`FileNotFoundError`).  None of these raises. -/
def execute_capture (passDurationSec : ℚ) (proc : ProcBehavior) : Option Unit :=
  match proc with
  | ProcBehavior.missing => none
  | ProcBehavior.exits code runTime =>
    if capture_timeout_sec passDurationSec < runTime then none
    else if code = 0 then some () else none

/-- The `decode_capture` step (lines 277-305): returns `none` when there is
no capture file, otherwise the external decoder's outcome (`decodeOk` false
models the caught decode exception). -/
def decode_capture (captureFile : Option Unit) (decodeOk : Bool) : Option Unit :=
  match captureFile with
  | none => none
  | some _ => if decodeOk then some () else none

/-- The mission-record fields `capture_success` and `decode_success` that
`log_mission` (lines 308-339) always writes. -/
structure MissionRecord where
  capture_success : Bool
  decode_success : Bool
deriving DecidableEq, Repr

/-- The tail of `run_single_capture` (lines 342-386): execute the capture,
decode whatever it produced, and log the mission record; every path reaches
the log. -/
def run_single_capture (passDurationSec : ℚ) (proc : ProcBehavior)
    (decodeOk : Bool) : MissionRecord :=
  let captureFile := execute_capture passDurationSec proc
  let decodeResult := decode_capture captureFile decodeOk
  { capture_success := captureFile.isSome, decode_success := decodeResult.isSome }

/-- Claim C7: the external capture invocation is bounded by the capture
duration (pass duration plus both margins) plus a fixed 60-second grace
period; a process that exceeds that bound, or exits non-zero, yields a
failed attempt with no capture artifact — no exception — and execution still
proceeds to mission logging, recording the failure. -/
theorem execute_capture_timeout_and_failure (passDurationSec runTime : ℚ)
    (code : ℤ) (decodeOk : Bool)
    (hfail : code ≠ 0 ∨ capture_timeout_sec passDurationSec < runTime) :
    capture_timeout_sec passDurationSec =
      passDurationSec + PRE_AOS_MARGIN_SEC + POST_LOS_MARGIN_SEC + 60 ∧
    execute_capture passDurationSec (ProcBehavior.exits code runTime) = none ∧
    run_single_capture passDurationSec (ProcBehavior.exits code runTime) decodeOk =
      { capture_success := false, decode_success := false } := by
  have hnone : execute_capture passDurationSec (ProcBehavior.exits code runTime) = none := by
    rw [execute_capture]
    rcases hfail with hc | ht
    · by_cases ht2 : capture_timeout_sec passDurationSec < runTime
      · rw [if_pos ht2]
      · rw [if_neg ht2, if_neg hc]
    · rw [if_pos ht]
  refine ⟨by rw [capture_timeout_sec, capture_duration_sec], hnone, ?_⟩
  rw [run_single_capture, hnone]
  rfl

/-- Witness for claim C7: a 570-second pass whose capture process exits with
status 1. -/
theorem execute_capture_timeout_and_failure_witness :
    capture_timeout_sec 570 = 570 + PRE_AOS_MARGIN_SEC + POST_LOS_MARGIN_SEC + 60 ∧
    execute_capture 570 (ProcBehavior.exits 1 500) = none ∧
    run_single_capture 570 (ProcBehavior.exits 1 500) true =
      { capture_success := false, decode_success := false } :=
  execute_capture_timeout_and_failure 570 500 1 true (Or.inl (by norm_num))

end Orchestrator

namespace Server

/-- The capture-related server state of satcom_server.py, as seen by the
interleaving of the request handler and the capture worker threads:
`capturing` is `SystemState.capturing`; `pending` counts capture threads
spawned by `handle_capture` (line 569-574) that have not yet executed
`state.set_capturing` (the first statement of `run_capture_async`,
line 249); `active` counts threads between `set_capturing` and the
`finally: state.clear_capturing()` (line 344). -/
structure CaptureServerState where
  capturing : Bool
  pending : ℕ
  active : ℕ
deriving DecidableEq, Repr

/-- The reply `handle_capture` sends: HTTP 409 "Capture already in
progress", HTTP 400 "Too early", or the "capture_started" acknowledgment. -/
inductive CaptureReply where
  | busy409
  | tooEarly400
  | started
deriving DecidableEq, Repr

/-- The `handle_capture` request handler (satcom_server.py lines 541-582):
it reads `state.capturing` (without holding the state lock) and rejects with
409 if set; otherwise it applies the AOS timing check and, if the pass is
active or within 120 s of AOS, spawns the capture thread — which will set
the capturing flag only once it runs — and immediately replies
"capture_started". -/
def handle_capture (st : CaptureServerState) (aos_unix los_unix now_unix : ℚ) :
    CaptureServerState × CaptureReply :=
  if st.capturing then (st, CaptureReply.busy409)
  else if ¬ (aos_unix ≤ now_unix ∧ now_unix < los_unix) ∧ 120 < aos_unix - now_unix then
    (st, CaptureReply.tooEarly400)
  else
    ({ st with pending := st.pending + 1 }, CaptureReply.started)

/-- A spawned capture thread reaches its first statement,
`state.set_capturing(pass_info)`. -/
def capture_thread_begin (st : CaptureServerState) : CaptureServerState :=
  match st.pending with
  | 0 => st
  | n + 1 => { capturing := true, pending := n, active := st.active + 1 }

/-- A capture thread finishes and runs `state.clear_capturing()`. -/
def capture_thread_finish (st : CaptureServerState) : CaptureServerState :=
  match st.active with
  | 0 => st
  | n + 1 => { st with capturing := false, active := n }

/-- One schedulable event of the server: an incoming capture request
(carrying the pass times and the wall clock) or a thread reaching its
begin/finish point. -/
inductive ServerEvent where
  | request (aos los now : ℚ)
  | threadBegin
  | threadFinish
deriving DecidableEq, Repr

/-- Run a sequence of server events, accumulating the HTTP replies. -/
def server_run (st : CaptureServerState) : List ServerEvent → CaptureServerState × List CaptureReply
  | [] => (st, [])
  | ServerEvent.request a l n :: es =>
    let out := handle_capture st a l n
    let rest := server_run out.1 es
    (rest.1, out.2 :: rest.2)
  | ServerEvent.threadBegin :: es =>
    server_run (capture_thread_begin st) es
  | ServerEvent.threadFinish :: es =>
    server_run (capture_thread_finish st) es

/-- Claim C6 (code bug): a request processed while the capturing flag is set
is indeed rejected synchronously with 409 and spawns nothing (first
conjunct), but the flag is set by the spawned thread, not by the handler, so
two requests arriving before either spawned thread runs are BOTH answered
"capture_started" and two captures end up in progress simultaneously —
violating the claim's system-wide at-most-one guarantee and the spec's
"exactly one CAPTURING attempt and one rejection" for near-simultaneous
requests. -/
theorem handle_capture_race :
    handle_capture ⟨true, 0, 1⟩ 0 1000 0 = (⟨true, 0, 1⟩, CaptureReply.busy409) ∧
    (server_run ⟨false, 0, 0⟩
        [ServerEvent.request 0 1000 0, ServerEvent.request 0 1000 0,
         ServerEvent.threadBegin, ServerEvent.threadBegin]).2 =
      [CaptureReply.started, CaptureReply.started] ∧
    (server_run ⟨false, 0, 0⟩
        [ServerEvent.request 0 1000 0, ServerEvent.request 0 1000 0,
         ServerEvent.threadBegin, ServerEvent.threadBegin]).1.active = 2 := by
  refine ⟨?_, ?_, ?_⟩
  · rw [handle_capture]
    rfl
  · norm_num [server_run, handle_capture, capture_thread_begin]
  · norm_num [server_run, handle_capture, capture_thread_begin]

end Server
